import Mathlib

/-!
Verification of the pelite PE-inspection library against its specification.

This file shallowly embeds the parts of the library that the specified properties
concern: the bounds-checked read primitives of `PeView` (`pe64/peview.rs`), the
export directory lookups (`pe64/exports.rs`), the file loader validation
(`pe32/pefile.rs`), the base-relocation iterator (`pe64/relocs.rs`), the resource
tree and data entries (`resources.rs`), the import name table iterator
(`pe32/imports.rs`), the RVA/file-offset conversions (`pe64/peview.rs`), and the
data-directory entry points of the four decoders.

Modelling conventions:
* machine integers are `Nat` with explicit wrap-around (`% 2^w`) exactly where
  the Rust source performs fixed-width arithmetic (release-mode semantics:
  overflow and underflow wrap);
* a Rust panic (a failed `assert!`, an `unwrap()` of `None`, an out-of-bounds
  slice index, `unreachable!`) is the `aborted` outcome of `RunResult`;
* unbounded loops are given explicit fuel; running out of fuel is the `fuelOut`
  outcome, distinguishing a still-running computation from a finished one;
* byte buffers and typed tables are abstracted to the exact reads the modelled
  code performs: a structure field per `read_*` primitive the function consumes,
  mirroring the borrowed slices and strings the Rust code obtains from the view.
-/

namespace Pelite

/-- Modulus of `u16` arithmetic. -/
def U16 : Nat := 65536

/-- Modulus of `u32` arithmetic (`Rva` is `u32`). -/
def U32 : Nat := 4294967296

/-- Modulus of `usize` arithmetic on the 64-bit targets the crate builds for. -/
def USIZE : Nat := 18446744073709551616

/-- Wrapping subtraction `a - b` modulo `w`, the release-mode semantics of
fixed-width subtraction in the Rust source (for `a < w`). -/
def subWrap (w a b : Nat) : Nat := (a + w - b % w) % w

/-- Outcome of running a piece of the library: a value, an abort-level failure
(a Rust panic: failed assert, `unwrap` of `None`, slice index out of bounds),
or exhaustion of the explicit fuel given to an unbounded loop. -/
inductive RunResult (α : Type) where
  | ok : α → RunResult α
  | aborted : RunResult α
  | fuelOut : RunResult α
deriving DecidableEq

/-- Sequencing on `RunResult`: aborts and fuel exhaustion propagate. -/
def RunResult.bind {α β : Type} : RunResult α → (α → RunResult β) → RunResult β
  | .ok a, f => f a
  | .aborted, _ => .aborted
  | .fuelOut, _ => .fuelOut

/-! ## `PeView::read_struct` / `PeView::read_slice` (`pe64/peview.rs`)

The two readers only consult the buffer length, the layout of `T`, and the
`rva`, so they are embedded as functions of those numbers.  The accepted result
is modelled as the byte offset the returned reference points at. -/

/-- `PeView::read_struct::<T>(rva)`: `None` for `rva == BADRVA` (0), otherwise
`assert!(rva <= image.len() - size_of::<T>())` — a `usize` subtraction that
wraps on underflow, exactly as in the source — then the alignment assert. -/
def read_struct (imageLen sizeT alignT rva : Nat) : RunResult (Option Nat) :=
  if rva = 0 then .ok Option.none
  else if rva ≤ subWrap USIZE imageLen sizeT then
    if rva % alignT = 0 then .ok (some rva) else .aborted
  else .aborted

/-- `PeView::read_slice::<T>(rva, len)`: as `read_struct` with
`size_of::<T>() * len` (a wrapping `usize` multiplication) in the bound. -/
def read_slice (imageLen sizeT alignT rva len : Nat) : RunResult (Option Nat) :=
  if rva = 0 then .ok Option.none
  else if rva ≤ subWrap USIZE imageLen (sizeT * len % USIZE) then
    if rva % alignT = 0 then .ok (some rva) else .aborted
  else .aborted

/-! ## Export directory (`pe64/exports.rs`)

`ExportDirectory` borrows three parallel tables and a string reader from the
view.  The structure below records exactly what the lookup functions consume:
the results of `functions()`, `names()` and `name_indices()` (each `None` when
the corresponding `read_slice` yields `None`), the `read_str` primitive
(`none` models every way `read_str` can fail to produce a string, which the
callers turn into a panic via `unwrap`), the ordinal base `image_.Base`, and
the export data directory's extent used by `is_forwarded`. -/

structure ExportDir where
  base : Nat
  dirVA : Nat
  dirSize : Nat
  functions? : Option (List Nat)
  names? : Option (List Nat)
  name_indices? : Option (List Nat)
  read_str? : Nat → Option String

/-- Exported symbol (`Export` in `pe64/exports.rs`): a gap, a symbol RVA, or a
forwarder string. -/
inductive Export where
  | none : Export
  | symbol : Nat → Export
  | forward : String → Export
deriving DecidableEq

/-- Full symbol information (`NamedExport` in `pe64/exports.rs`). -/
structure NamedExport where
  ord : Nat
  symbol : Export
  name : Option String
deriving DecidableEq

/-- `ExportDirectory::is_forwarded(rva)`:
`rva >= datadir.VirtualAddress && rva < datadir.VirtualAddress + datadir.Size`,
the addition being `u32`. -/
def is_forwarded (e : ExportDir) (rva : Nat) : Bool :=
  decide (e.dirVA ≤ rva) && decide (rva < (e.dirVA + e.dirSize) % U32)

/-- `ExportDirectory::symbol_from_rva`: forwarded RVAs resolve through
`read_str(rva).unwrap()` (aborting when the string is unreadable). -/
def symbol_from_rva (e : ExportDir) (rva : Nat) : RunResult Export :=
  if is_forwarded e rva then
    match e.read_str? rva with
    | some s => .ok (.forward s)
    | Option.none => .aborted
  else .ok (.symbol rva)

/-- `ExportDirectory::symbol_by_ordinal(ord)`: `let ord_idx = ord - Base as u16`
is a plain (wrapping) `u16` subtraction in the source. -/
def symbol_by_ordinal (e : ExportDir) (ord : Nat) : RunResult Export :=
  match e.functions? with
  | Option.none => .ok .none
  | some functions =>
    let ord_idx := subWrap U16 (ord % U16) (e.base % U16)
    match functions.get? ord_idx with
    | some sym_rva =>
      if sym_rva ≠ 0 then symbol_from_rva e sym_rva else .ok .none
    | Option.none => .ok .none

/-- The ordinal lookup as the specification words it: the index is computed
with a saturating subtraction.  Kept beside `symbol_by_ordinal` (the source,
which wraps) for comparison. -/
def symbol_by_ordinal_saturating (e : ExportDir) (ord : Nat) : RunResult Export :=
  match e.functions? with
  | Option.none => .ok .none
  | some functions =>
    let ord_idx := ord % U16 - e.base % U16
    match functions.get? ord_idx with
    | some sym_rva =>
      if sym_rva ≠ 0 then symbol_from_rva e sym_rva else .ok .none
    | Option.none => .ok .none

/-- The loop body of `symbol_by_name`: walk the zipped pairs, and on the first
string match resolve `functions[pair.2]`, treating an out-of-range index or a
zero RVA as `Export::None`. -/
def sbn_loop (e : ExportDir) (functions : List Nat) (name : String) :
    List (Nat × Nat) → RunResult Export
  | [] => .ok .none
  | (name_rva, name_ord_idx) :: rest =>
    match e.read_str? name_rva with
    | Option.none => .aborted
    | some name_it =>
      if name_it = name then
        match functions.get? name_ord_idx with
        | some sym_rva =>
          if sym_rva ≠ 0 then symbol_from_rva e sym_rva else .ok .none
        | Option.none => .ok .none
      else sbn_loop e functions name rest

/-- `ExportDirectory::symbol_by_name(name)` as written in the source: the
second zip argument on line 175 of `pe64/exports.rs` is `self.names()` —
`names()` is zipped with itself, so the second component of every pair is a
name RVA, not a name-ordinal index. -/
def symbol_by_name (e : ExportDir) (name : String) : RunResult Export :=
  match e.functions? with
  | Option.none => .ok .none
  | some functions =>
    match e.names? with
    | Option.none => .ok .none
    | some names =>
      match e.names? with
      | Option.none => .ok .none
      | some name_indices => sbn_loop e functions name (names.zip name_indices)

/-- `symbol_by_name` as the specification describes it (and as
`name_indices()`'s own documentation intends): `names()` zipped with
`name_indices()`. -/
def symbol_by_name_spec (e : ExportDir) (name : String) : RunResult Export :=
  match e.functions? with
  | Option.none => .ok .none
  | some functions =>
    match e.names? with
    | Option.none => .ok .none
    | some names =>
      match e.name_indices? with
      | Option.none => .ok .none
      | some name_indices => sbn_loop e functions name (names.zip name_indices)

/-- The search loop of `name_from_ordinal`: find a name whose ordinal index
equals `ord_idx`; falling off the end yields the nameless export. -/
def nfo_loop (e : ExportDir) (ord sym_rva ord_idx : Nat) :
    List (Nat × Nat) → RunResult NamedExport
  | [] =>
    (symbol_from_rva e sym_rva).bind fun s => .ok ⟨ord, s, Option.none⟩
  | (name_rva, name_ord_idx) :: rest =>
    if ord_idx = name_ord_idx then
      (symbol_from_rva e sym_rva).bind fun s =>
        match e.read_str? name_rva with
        | some n => .ok ⟨ord, s, some n⟩
        | Option.none => .aborted
    else nfo_loop e ord sym_rva ord_idx rest

/-- `ExportDirectory::name_from_ordinal(ord)` (this function zips `names()`
with `name_indices()` correctly). -/
def name_from_ordinal (e : ExportDir) (ord : Nat) : RunResult NamedExport :=
  match e.functions? with
  | Option.none => .ok ⟨ord, .none, Option.none⟩
  | some functions =>
    let ord_idx := subWrap U16 (ord % U16) (e.base % U16)
    match functions.get? ord_idx with
    | some sym_rva =>
      if sym_rva ≠ 0 then
        match e.name_indices?, e.names? with
        | some name_indices, some names =>
          nfo_loop e ord sym_rva ord_idx (names.zip name_indices)
        | _, _ =>
          (symbol_from_rva e sym_rva).bind fun s => .ok ⟨ord, s, Option.none⟩
      else .ok ⟨ord, .none, Option.none⟩
    | Option.none => .ok ⟨ord, .none, Option.none⟩

/-- Concrete export directory exercising the lookups: one function at RVA
`0x1111`, one name `"foo"` (stored at RVA `0x3000`) whose name-ordinal index
is 0, ordinal base 1.  The export data directory spans `[0x2000, 0x2100)`, so
`0x1111` is not forwarded. -/
def exC1 : ExportDir :=
  { base := 1
    dirVA := 0x2000
    dirSize := 0x100
    functions? := some [0x1111]
    names? := some [0x3000]
    name_indices? := some [0]
    read_str? := fun rva => if rva = 0x3000 then some "foo" else Option.none }

/-- Concrete export directory for the ordinal lookup: base 1, a single nonzero
function RVA 42, no names; every string read succeeds. -/
def exC3 : ExportDir :=
  { base := 1
    dirVA := 0x5000
    dirSize := 0x10
    functions? := some [42]
    names? := some []
    name_indices? := some []
    read_str? := fun _ => some "fwd" }

/-! ## File loader (`pe32/pefile.rs`)

`PeFile::open` interleaves file reads with header validation.  The embedding
takes the parsed header fields and section headers as input and models every
validation step and every slice-indexing panic of the loader; the `read_exact`
calls themselves are taken to succeed (the `PeError::Io` case is the file
system's, not the validator's).  Sizes of the packed structures (32-bit
variant): `ImageDosHeader` 64, `ImageNtHeaders` 248, `ImageOptionalHeader`
224, `ImageSectionHeader` 40 bytes. -/

/-- Size in bytes of the packed `ImageOptionalHeader32`. -/
def sizeof_ImageOptionalHeader : Nat := 224

/-- Size in bytes of the packed `ImageNtHeaders32`. -/
def sizeof_ImageNtHeaders : Nat := 248

/-- Size in bytes of the packed `ImageSectionHeader`. -/
def sizeof_ImageSectionHeader : Nat := 40

/-- `IMAGE_DOS_HEADER_MAGIC` (`image.rs`). -/
def IMAGE_DOS_HEADER_MAGIC : Nat := 0x5A4D

/-- `IMAGE_NT_HEADERS_SIGNATURE` (`image.rs`). -/
def IMAGE_NT_HEADERS_SIGNATURE : Nat := 0x00004550

/-- `IMAGE_NT_OPTIONAL_HDR32_MAGIC` (`image.rs`). -/
def IMAGE_NT_OPTIONAL_HDR_MAGIC : Nat := 0x10B

/-- `IMAGE_NUMBEROF_DIRECTORY_ENTRIES` (`image.rs`). -/
def IMAGE_NUMBEROF_DIRECTORY_ENTRIES : Nat := 16

/-- `PeError` (`pe32/pefile.rs`), the I/O payload dropped. -/
inductive PeError where
  | io : PeError
  | badMagic : PeError
  | insanity : PeError
deriving DecidableEq

instance {ε α : Type} [DecidableEq ε] [DecidableEq α] : DecidableEq (Except ε α) :=
  fun a b =>
    match a, b with
    | .ok x, .ok y => decidable_of_iff (x = y) (by constructor <;> (intro h; cases h; rfl))
    | .error x, .error y => decidable_of_iff (x = y) (by constructor <;> (intro h; cases h; rfl))
    | .ok _, .error _ => .isFalse (by intro h; cases h)
    | .error _, .ok _ => .isFalse (by intro h; cases h)

/-- `ImageSectionHeader` restricted to the fields the modelled code reads. -/
structure SectionHeader where
  virtualSize : Nat
  virtualAddress : Nat
  sizeOfRawData : Nat
  pointerToRawData : Nat
deriving DecidableEq

/-- The header fields `PeFile::open` reads, plus the parsed section-header
array (of length `NumberOfSections`). -/
structure OpenInput where
  e_magic : Nat
  e_lfanew : Nat
  signature : Nat
  optMagic : Nat
  sizeOfHeaders : Nat
  numberOfRvaAndSizes : Nat
  sizeOfOptionalHeader : Nat
  numberOfSections : Nat
  sizeOfImage : Nat
  sections : List SectionHeader

/-- `PeFile::map_sections`: per section, reject `VirtualAddress < min_rva` or
`VirtualSize == 0` as `Insanity`; then, for sections with raw data, the copy
target `buf[VirtualAddress .. VirtualAddress + SizeOfRawData]` panics when it
falls outside the `SizeOfImage`-sized buffer (the `FIXME` in the source). -/
def map_sections (minRva sizeOfImage : Nat) :
    List SectionHeader → RunResult (Except PeError Unit)
  | [] => .ok (.ok ())
  | s :: rest =>
    if s.virtualAddress < minRva ∨ s.virtualSize = 0 then .ok (.error .insanity)
    else if s.pointerToRawData ≠ 0 ∧ ¬(s.virtualAddress + s.sizeOfRawData ≤ sizeOfImage) then
      .aborted
    else map_sections minRva sizeOfImage rest

/-- `PeFile::open`, validation logic in source order: DOS magic, `e_lfanew`
sanity, NT signature and optional-header magic, the four sanity bounds, the
section-header range against `SizeOfHeaders`, the header-copy slice bounds,
then `map_sections`. -/
def pefile_open (inp : OpenInput) : RunResult (Except PeError Unit) :=
  if inp.e_magic ≠ IMAGE_DOS_HEADER_MAGIC then .ok (.error .badMagic)
  else if inp.e_lfanew = 0 ∨ inp.e_lfanew > 0x200 then .ok (.error .insanity)
  else if inp.signature ≠ IMAGE_NT_HEADERS_SIGNATURE ∨
          inp.optMagic ≠ IMAGE_NT_OPTIONAL_HDR_MAGIC then .ok (.error .badMagic)
  else if inp.sizeOfHeaders > 0x1000 ∨
          inp.numberOfRvaAndSizes > IMAGE_NUMBEROF_DIRECTORY_ENTRIES ∨
          inp.sizeOfOptionalHeader < sizeof_ImageOptionalHeader ∨
          inp.numberOfSections > 100 then .ok (.error .insanity)
  else
    let sec_begin := inp.e_lfanew + (sizeof_ImageNtHeaders - sizeof_ImageOptionalHeader) +
      inp.sizeOfOptionalHeader
    let sec_end := sec_begin + inp.numberOfSections * sizeof_ImageSectionHeader
    if sec_end > inp.sizeOfHeaders then .ok (.error .insanity)
    else if inp.sizeOfHeaders < inp.e_lfanew + sizeof_ImageNtHeaders then .aborted
    else if inp.sizeOfHeaders > inp.sizeOfImage then .aborted
    else map_sections inp.sizeOfHeaders inp.sizeOfImage inp.sections

/-- A file whose DOS magic is byte-swapped (`0x4D5A`), otherwise plausible. -/
def inpBadMagic : OpenInput :=
  { e_magic := 0x4D5A
    e_lfanew := 0x80
    signature := 0x4550
    optMagic := 0x10B
    sizeOfHeaders := 0x400
    numberOfRvaAndSizes := 16
    sizeOfOptionalHeader := 224
    numberOfSections := 1
    sizeOfImage := 0x3000
    sections := [⟨0x100, 0x1000, 0x200, 0x400⟩] }

/-- A file declaring `NumberOfSections = 200`, otherwise well-formed. -/
def inpInsane : OpenInput :=
  { e_magic := 0x5A4D
    e_lfanew := 0x80
    signature := 0x4550
    optMagic := 0x10B
    sizeOfHeaders := 0x1000
    numberOfRvaAndSizes := 16
    sizeOfOptionalHeader := 224
    numberOfSections := 200
    sizeOfImage := 0x3000
    sections := [⟨0x100, 0x1000, 0x200, 0x400⟩] }

/-! ## Base relocations (`pe64/relocs.rs`)

`RelocsIterator::next` reads an `ImageBaseRelocation` header (8 bytes: a `u32`
page RVA and a `u32` `SizeOfBlock`) through `read_struct(…).unwrap()` and the
trailing `u16` entries through `read_slice(…).unwrap()`.  The view is
abstracted to those two reads.  Iterator positions are `Rva` (`u32`), so every
advance wraps modulo `2^32`. -/

/-- Size in bytes of the packed `ImageBaseRelocation`. -/
def sizeof_ImageBaseRelocation : Nat := 8

/-- The reads `RelocsIterator` performs on the view: the header at an RVA
(`(VirtualAddress, SizeOfBlock)`), and a `u16` slice of a given length at an
RVA.  `none` models every way the underlying `read_struct`/`read_slice` call
fails to produce a value, which the iterator turns into a panic. -/
structure RelocView where
  readReloc? : Nat → Option (Nat × Nat)
  readBlocks? : Nat → Nat → Option (List Nat)

/-- One item of the relocation iterator (`BaseRelocations`): the header fields
and the borrowed entry slice. -/
structure BaseRel where
  virtualAddress : Nat
  sizeOfBlock : Nat
  blocks : List Nat
deriving DecidableEq

/-- `BaseRelocations::rva_of(block)`: page RVA plus the low 12 bits. -/
def rva_of (rel : BaseRel) (typeAndOffset : Nat) : Nat :=
  (rel.virtualAddress + typeAndOffset % 4096) % U32

/-- `BaseRelocations::type_of(block)`: bits 12…15 of the entry. -/
def type_of (typeAndOffset : Nat) : Nat :=
  typeAndOffset / 4096 % 256

/-- `RelocsIterator::next` iterated to completion: while the position is below
`end`, read the header, `assert!(SizeOfBlock > 8)`, read the
`(SizeOfBlock - 8) / 2` entries at position + 8, and advance by `SizeOfBlock`
(`u32` addition). -/
def relocs_iter (v : RelocView) (endPos : Nat) : Nat → Nat → RunResult (List BaseRel)
  | 0, _ => .fuelOut
  | fuel + 1, it =>
    if it ≥ endPos then .ok []
    else
      match v.readReloc? it with
      | Option.none => .aborted
      | some (va, szBlock) =>
        if sizeof_ImageBaseRelocation < szBlock then
          match v.readBlocks? ((it + sizeof_ImageBaseRelocation) % U32)
              ((szBlock - sizeof_ImageBaseRelocation) / 2) with
          | Option.none => .aborted
          | some entries =>
            match relocs_iter v endPos fuel ((it + szBlock) % U32) with
            | .ok rest => .ok (⟨va, szBlock, entries⟩ :: rest)
            | .aborted => .aborted
            | .fuelOut => .fuelOut
        else .aborted

/-- A full iteration of the relocations directory `[dirVA, dirVA + Size)`,
starting at `datadir.VirtualAddress` as `RelocsDirectory::iter` does. -/
def relocs_full (v : RelocView) (dirVA dirSize fuel : Nat) : RunResult (List BaseRel) :=
  relocs_iter v ((dirVA + dirSize) % U32) fuel dirVA

/-- Sum of the `SizeOfBlock` fields of the emitted blocks. -/
def sizeOfBlocks_sum (l : List BaseRel) : Nat :=
  (l.map (fun b => b.sizeOfBlock)).sum

/-- A relocation directory of declared `Size` 10 holding a single block whose
`SizeOfBlock` is 12: the final block overruns the directory end. -/
def relocsC5 : RelocView :=
  { readReloc? := fun p => if p = 0x1000 then some (0x1000, 12) else Option.none
    readBlocks? := fun p n => if p = 0x1008 then some (List.replicate n 0xA018) else Option.none }

/-! ## Resource data entries (`resources.rs`)

`ResourceDataEntry::data` computes
`OffsetToData as usize - vbase as usize` — a `usize` subtraction that wraps on
underflow — and then indexes `&data[offset .. offset + Size]`, which panics
when the range escapes the resource slice (`Resources::read_slice`, whose
comment calls the panic desired behaviour).  The result is modelled as the
`(offset, length)` window into the resource slice. -/

/-- `ResourceDataEntry::data()` over a resource slice of length `dataLen`
based at image RVA `vbase`. -/
def resource_data (dataLen vbase offsetToData size : Nat) : RunResult (Nat × Nat) :=
  let offset := subWrap USIZE offsetToData (vbase % USIZE)
  let stop := (offset + size) % USIZE
  if offset ≤ stop ∧ stop ≤ dataLen then .ok (offset, size) else .aborted

/-! ## Import name table (`pe32/imports.rs`)

`ImportNameIterator::next` reads a VA-width thunk word at the cursor through
`read_struct::<Va>(…).unwrap()`; a zero thunk ends the iteration; otherwise the
cursor advances by `size_of::<Va>()` (`u32` addition on the `Rva` cursor) and
the thunk is decoded: ordinal flag set ⇒ `ByOrdinal` of the low 16 bits, else
the thunk is an RVA (`*va as Rva`, truncation to `u32`) to a `u16` hint
followed by the NUL-terminated name.

Only the 32-bit instantiation is present under `src/`
(`pe32/imports.rs`, `Va = u32`, flag `IMAGE_ORDINAL_FLAG32`).  The 64-bit
module `pe64::imports` is declared in `pe64/mod.rs` but its file is absent;
its behaviour below is the same code instantiated at `Va = u64`,
flag `IMAGE_ORDINAL_FLAG64`.
Modelled from the spec: the 64-bit instantiation (`vaSize = 8`,
`flag = IMAGE_ORDINAL_FLAG64`) follows §4.3 and the design note "the ordinal
flag is the high bit of a VA-width word…; decoders must use the
address-width-specific mask". -/

/-- `IMAGE_ORDINAL_FLAG32` (`image.rs`). -/
def IMAGE_ORDINAL_FLAG32 : Nat := 0x80000000

/-- `IMAGE_ORDINAL_FLAG64` (`image.rs`). -/
def IMAGE_ORDINAL_FLAG64 : Nat := 0x8000000000000000

/-- `ImportedSymbol` (`pe32/imports.rs`). -/
inductive ImportedSymbol where
  | byName : Nat → String → ImportedSymbol
  | byOrdinal : Nat → ImportedSymbol
deriving DecidableEq

/-- The reads the import-name iterator performs on the view: a VA-width word
at an RVA, a `u16` at an RVA, and a NUL-terminated string at an RVA; `none` is
any failure of the underlying read, which the iterator unwraps into a panic. -/
structure ImportDescView where
  readVa? : Nat → Option Nat
  readU16? : Nat → Option Nat
  readStr? : Nat → Option String

/-- Decoding of one nonzero thunk word, as in the body of
`ImportNameIterator::next`: flag clear ⇒ hint at `*va as Rva` and name at
`*va as Rva + 2` (`u32` arithmetic), flag set ⇒ ordinal `*va & 0xFFFF`. -/
def decode_thunk (flag : Nat) (v : ImportDescView) (w : Nat) : RunResult ImportedSymbol :=
  if Nat.land w flag = 0 then
    match v.readU16? (w % U32) with
    | Option.none => .aborted
    | some hint =>
      match v.readStr? ((w % U32 + 2) % U32) with
      | Option.none => .aborted
      | some name => .ok (.byName hint name)
  else .ok (.byOrdinal (Nat.land w 0xFFFF))

/-- Thunk-by-thunk decoding of a word list. -/
def decode_thunks (flag : Nat) (v : ImportDescView) : List Nat → RunResult (List ImportedSymbol)
  | [] => .ok []
  | w :: rest =>
    (decode_thunk flag v w).bind fun s =>
      (decode_thunks flag v rest).bind fun l => .ok (s :: l)

/-- `ImportNameIterator` run to completion from cursor `it`: stop on a zero
thunk, panic when a read fails, otherwise decode and advance by `vaSize`. -/
def int_iter (vaSize flag : Nat) (v : ImportDescView) : Nat → Nat → RunResult (List ImportedSymbol)
  | 0, _ => .fuelOut
  | fuel + 1, it =>
    match v.readVa? it with
    | Option.none => .aborted
    | some va =>
      if va ≠ 0 then
        match decode_thunk flag v va with
        | .ok s =>
          match int_iter vaSize flag v fuel ((it + vaSize) % U32) with
          | .ok rest => .ok (s :: rest)
          | .aborted => .aborted
          | .fuelOut => .fuelOut
        | .aborted => .aborted
        | .fuelOut => .fuelOut
      else .ok []

/-- An import name table at RVA `0x100` with two thunks: `0x80000005` (ordinal
flag set, ordinal 5) and `0x3000` (hint 7, name at `0x3002`), then the zero
terminator. -/
def intC7 : ImportDescView :=
  { readVa? := fun p =>
      if p = 0x100 then some 0x80000005
      else if p = 0x104 then some 0x3000
      else if p = 0x108 then some 0
      else Option.none
    readU16? := fun p => if p = 0x3000 then some 7 else Option.none
    readStr? := fun p => if p = 0x3002 then some "GetProcAddress" else Option.none }

/-! ## RVA ↔ file-offset conversion (`pe64/peview.rs`)

Both conversions linearly scan the section headers.  `rva_to_file_offset`
computes `rva - VirtualAddress + PointerToRawData` in `u32` and widens to
`FileOffset` (`usize`); `file_offset_to_rva` compares in `usize`
(`Ptr as FileOffset + Raw as FileOffset` cannot wrap), truncates the offset to
`Rva` (`file_offset as Rva`), and subtracts in `u32`; it returns `BADRVA` (0)
when no section covers the offset. -/

/-- `PeView::rva_to_file_offset(rva)`. -/
def rva_to_file_offset : List SectionHeader → Nat → Option Nat
  | [], _ => Option.none
  | s :: rest, rva =>
    if s.virtualAddress ≤ rva ∧ rva < (s.virtualAddress + s.sizeOfRawData) % U32 then
      some ((subWrap U32 (rva % U32) s.virtualAddress + s.pointerToRawData) % U32)
    else rva_to_file_offset rest rva

/-- `PeView::file_offset_to_rva(file_offset)`; `0` is `BADRVA`. -/
def file_offset_to_rva : List SectionHeader → Nat → Nat
  | [], _ => 0
  | s :: rest, off =>
    if s.pointerToRawData ≤ off ∧ off < s.pointerToRawData + s.sizeOfRawData then
      (subWrap U32 (off % U32) s.pointerToRawData + s.virtualAddress) % U32
    else file_offset_to_rva rest off

/-- Raw-data ranges of two section headers do not overlap. -/
def rawDisjoint (s t : SectionHeader) : Prop :=
  s.pointerToRawData + s.sizeOfRawData ≤ t.pointerToRawData ∨
  t.pointerToRawData + t.sizeOfRawData ≤ s.pointerToRawData

instance : DecidableRel rawDisjoint :=
  fun _ _ => by unfold rawDisjoint; infer_instance

/-- Two sections whose raw-data ranges coincide (`[0x400, 0x600)`) while their
virtual ranges differ: a malformed but loadable header layout. -/
def secsOverlap : List SectionHeader :=
  [⟨0x200, 0x1000, 0x200, 0x400⟩, ⟨0x200, 0x2000, 0x200, 0x400⟩]

/-- Two well-formed sections with disjoint raw-data ranges. -/
def secsDisjoint : List SectionHeader :=
  [⟨0x200, 0x1000, 0x200, 0x400⟩, ⟨0x200, 0x2000, 0x200, 0x600⟩]

/-! ## Resource tree traversal (`resources.rs`)

Navigation descends from the synthetic root entry
(`Name = 0, Offset = 0x80000000`).  For an entry whose `Offset` has the high
bit set, `as_dir` reads the child `ImageResourceDirectory` at
`Offset & 0x7FFFFFFF` together with its inline `ImageResourceDirectoryEntry`
records; recursive traversal (as in the `Display` impl's `rec`) then walks
each child entry in turn.  The reads are abstracted to `readDir?`, returning
the `(Name, Offset)` pairs of a directory's entries (`none` models the panic
of `Resources::read_slice` on a corrupt offset).  Fuel bounds the descent
depth; `fuelOut` means the recursion is still running after consuming the
whole budget. -/

/-- The reads resource-tree traversal performs: the entry list of the
directory image at a resource-relative offset. -/
structure ResourceTree where
  readDir? : Nat → Option (List (Nat × Nat))

/-- Traversal of one directory entry, given a depth budget: descend into the
child directory when the `Offset` high bit is set, walking its child entries
in order, and visit the data leaf otherwise (reading a `DataEntry` never
recurses). -/
def walkEntry (r : ResourceTree) : Nat → Nat → RunResult Unit
  | 0, _ => .fuelOut
  | fuel + 1, offsetWord =>
    if Nat.land offsetWord 0x80000000 ≠ 0 then
      match r.readDir? (Nat.land offsetWord 0x7FFFFFFF) with
      | Option.none => .aborted
      | some entries =>
        entries.foldl (fun acc e => acc.bind fun _ => walkEntry r fuel e.2) (.ok ())
    else .ok ()

/-- The `Offset` word of the synthetic root entry (`Resources::root`). -/
def rootOffsetWord : Nat := 0x80000000

/-- A cyclic resource encoding: the directory at offset 0 contains a single
entry whose child directory is again at offset 0. -/
def resCyc : ResourceTree :=
  { readDir? := fun off => if off = 0 then some [(0, 0x80000000)] else Option.none }

/-! ## Decoder entry points (`PeExports`, `PeImports`, `PeRelocs`,
`PeViewResources` impls)

Each entry point looks its slot up in `data_directory()` — a slice of length
`NumberOfRvaAndSizes` — with the checked `get`, returns `None` when either the
slot is missing or the slot's `VirtualAddress` is `BADRVA`, and otherwise
builds the directory handle (exports additionally `unwrap`s a `read_struct`,
resources a `read_slice`). -/

/-- `IMAGE_DIRECTORY_ENTRY_EXPORT` (`image.rs`). -/
def IMAGE_DIRECTORY_ENTRY_EXPORT : Nat := 0

/-- `IMAGE_DIRECTORY_ENTRY_IMPORT` (`image.rs`). -/
def IMAGE_DIRECTORY_ENTRY_IMPORT : Nat := 1

/-- `IMAGE_DIRECTORY_ENTRY_RESOURCE` (`image.rs`). -/
def IMAGE_DIRECTORY_ENTRY_RESOURCE : Nat := 2

/-- `IMAGE_DIRECTORY_ENTRY_BASERELOC` (`image.rs`). -/
def IMAGE_DIRECTORY_ENTRY_BASERELOC : Nat := 5

/-- `ImageDataDirectory`. -/
structure DataDirectory where
  virtualAddress : Nat
  size : Nat
deriving DecidableEq

/-- What the four entry points consume from the view: the data directory (the
slice of length `NumberOfRvaAndSizes`), the `read_struct::<ImageExportDirectory>`
result (abstracted to an opaque token), and the `read_slice::<u8>` result for
the resource extent. -/
structure EntryView where
  dataDirectory : List DataDirectory
  readExportDir? : Nat → Option Nat
  readResourceSlice? : Nat → Nat → Option (List Nat)

/-- `PeExports::exports for PeView` (`pe64/exports.rs` lines 280–299). -/
def exports_entry (v : EntryView) : RunResult (Option (Nat × DataDirectory)) :=
  match v.dataDirectory.get? IMAGE_DIRECTORY_ENTRY_EXPORT with
  | Option.none => .ok Option.none
  | some datadir =>
    if datadir.virtualAddress ≠ 0 then
      match v.readExportDir? datadir.virtualAddress with
      | some image => .ok (some (image, datadir))
      | Option.none => .aborted
    else .ok Option.none

/-- `PeImports::imports for PeView` (`pe32/imports.rs` lines 73–90). -/
def imports_entry (v : EntryView) : RunResult (Option DataDirectory) :=
  match v.dataDirectory.get? IMAGE_DIRECTORY_ENTRY_IMPORT with
  | Option.none => .ok Option.none
  | some datadir =>
    if datadir.virtualAddress ≠ 0 then .ok (some datadir) else .ok Option.none

/-- `PeRelocs::relocs for PeView` (`pe64/relocs.rs` lines 49–66). -/
def relocs_entry (v : EntryView) : RunResult (Option DataDirectory) :=
  match v.dataDirectory.get? IMAGE_DIRECTORY_ENTRY_BASERELOC with
  | Option.none => .ok Option.none
  | some datadir =>
    if datadir.virtualAddress ≠ 0 then .ok (some datadir) else .ok Option.none

/-- `PeViewResources::resources for PeView` (`pe64/resources.rs` lines 13–23). -/
def resources_entry (v : EntryView) : RunResult (Option (List Nat × Nat)) :=
  match v.dataDirectory.get? IMAGE_DIRECTORY_ENTRY_RESOURCE with
  | Option.none => .ok Option.none
  | some datadir =>
    if datadir.virtualAddress ≠ 0 then
      match v.readResourceSlice? datadir.virtualAddress datadir.size with
      | some resrc => .ok (some (resrc, datadir.virtualAddress))
      | Option.none => .aborted
    else .ok Option.none

/-- A view whose optional header declares `NumberOfRvaAndSizes = 0`: the data
directory is empty. -/
def entryViewEmpty : EntryView :=
  { dataDirectory := []
    readExportDir? := fun _ => Option.none
    readResourceSlice? := fun _ _ => Option.none }

/-- The exact circumstances in which `PeFile::open` reports `BadMagic`: a DOS
magic mismatch, or — once `e_lfanew` passes its sanity bound and the NT
headers are located — an NT signature or optional-header magic mismatch. -/
def open_badMagic_cond (inp : OpenInput) : Prop :=
  inp.e_magic ≠ IMAGE_DOS_HEADER_MAGIC ∨
  (inp.e_magic = IMAGE_DOS_HEADER_MAGIC ∧ 0 < inp.e_lfanew ∧ inp.e_lfanew ≤ 0x200 ∧
   (inp.signature ≠ IMAGE_NT_HEADERS_SIGNATURE ∨ inp.optMagic ≠ IMAGE_NT_OPTIONAL_HDR_MAGIC))

/-- The exact circumstances in which `PeFile::open` reports `Insanity`, in
check order: `e_lfanew` zero or above `0x200`; or (all magics matching) one of
the four sanity bounds — `SizeOfHeaders > 0x1000`,
`NumberOfRvaAndSizes > 16`, `SizeOfOptionalHeader < sizeof(OptionalHeader)`,
`NumberOfSections > 100`; or the section-header range ending beyond
`SizeOfHeaders`; or a section with `VirtualAddress` below `SizeOfHeaders` or
`VirtualSize == 0`. -/
def open_insanity_cond (inp : OpenInput) : Prop :=
  inp.e_magic = IMAGE_DOS_HEADER_MAGIC ∧
  ((inp.e_lfanew = 0 ∨ 0x200 < inp.e_lfanew) ∨
   (0 < inp.e_lfanew ∧ inp.e_lfanew ≤ 0x200 ∧
    inp.signature = IMAGE_NT_HEADERS_SIGNATURE ∧ inp.optMagic = IMAGE_NT_OPTIONAL_HDR_MAGIC ∧
    ((0x1000 < inp.sizeOfHeaders ∨
      IMAGE_NUMBEROF_DIRECTORY_ENTRIES < inp.numberOfRvaAndSizes ∨
      inp.sizeOfOptionalHeader < sizeof_ImageOptionalHeader ∨
      100 < inp.numberOfSections) ∨
     (inp.sizeOfHeaders ≤ 0x1000 ∧
      inp.numberOfRvaAndSizes ≤ IMAGE_NUMBEROF_DIRECTORY_ENTRIES ∧
      sizeof_ImageOptionalHeader ≤ inp.sizeOfOptionalHeader ∧
      inp.numberOfSections ≤ 100 ∧
      (inp.sizeOfHeaders <
         inp.e_lfanew + (sizeof_ImageNtHeaders - sizeof_ImageOptionalHeader) +
           inp.sizeOfOptionalHeader + inp.numberOfSections * sizeof_ImageSectionHeader ∨
       (inp.e_lfanew + (sizeof_ImageNtHeaders - sizeof_ImageOptionalHeader) +
           inp.sizeOfOptionalHeader + inp.numberOfSections * sizeof_ImageSectionHeader ≤
           inp.sizeOfHeaders ∧
        ∃ s ∈ inp.sections, s.virtualAddress < inp.sizeOfHeaders ∨ s.virtualSize = 0))))))

instance (inp : OpenInput) : Decidable (open_badMagic_cond inp) := by
  unfold open_badMagic_cond; infer_instance

instance (inp : OpenInput) : Decidable (open_insanity_cond inp) := by
  unfold open_insanity_cond; infer_instance

/-! ## Helper lemmas -/

theorem subWrap_of_le {w a b : Nat} (hba : b ≤ a) (haw : a < w) :
    subWrap w a b = a - b := by
  unfold subWrap
  have hb : b % w = b := Nat.mod_eq_of_lt (lt_of_le_of_lt hba haw)
  rw [hb]
  have h1 : a + w - b = (a - b) + w := by omega
  rw [h1, Nat.add_mod_right, Nat.mod_eq_of_lt (by omega)]

theorem subWrap_of_lt {w a b : Nat} (hab : a < b) (hbw : b < w) :
    subWrap w a b = w - b + a := by
  unfold subWrap
  rw [Nat.mod_eq_of_lt hbw]
  have h1 : a + w - b = w - b + a := by omega
  rw [h1, Nat.mod_eq_of_lt (by omega)]

theorem get?_of_length_le {α : Type} : ∀ (l : List α) (n : Nat), l.length ≤ n →
    l.get? n = Option.none
  | [], _, _ => rfl
  | _ :: l, n + 1, h => get?_of_length_le l n (Nat.le_of_succ_le_succ h)

theorem get?_eq_getD {α : Type} (d : α) :
    ∀ (l : List α) (n : Nat), n < l.length → l.get? n = some (l.getD n d)
  | _ :: _, 0, _ => rfl
  | _ :: l, n + 1, h => get?_eq_getD d l n (Nat.lt_of_succ_lt_succ h)

theorem map_sections_ne_badMagic :
    ∀ (l : List SectionHeader) (minRva szi : Nat),
    map_sections minRva szi l ≠ .ok (.error .badMagic)
  | [], _, _ => by simp [map_sections]
  | s :: rest, minRva, szi => by
    unfold map_sections
    split_ifs with h1 h2
    · simp
    · simp
    · exact map_sections_ne_badMagic rest minRva szi

theorem map_sections_insanity_iff :
    ∀ (l : List SectionHeader) (minRva szi : Nat),
    (∀ s ∈ l, s.pointerToRawData ≠ 0 → s.virtualAddress + s.sizeOfRawData ≤ szi) →
    (map_sections minRva szi l = .ok (.error .insanity) ↔
      ∃ s ∈ l, s.virtualAddress < minRva ∨ s.virtualSize = 0)
  | [], _, _, _ => by simp [map_sections]
  | s :: rest, minRva, szi, hfits => by
    unfold map_sections
    split_ifs with h1 h2
    · exact iff_of_true rfl ⟨s, List.mem_cons_self s rest, h1⟩
    · exact absurd (hfits s (List.mem_cons_self s rest) h2.1) h2.2
    · rw [map_sections_insanity_iff rest minRva szi
        (fun t ht => hfits t (List.mem_cons_of_mem _ ht))]
      constructor
      · rintro ⟨t, ht, hbad⟩
        exact ⟨t, List.mem_cons_of_mem _ ht, hbad⟩
      · rintro ⟨t, ht, hbad⟩
        rcases List.mem_cons.mp ht with rfl | ht'
        · exact absurd hbad h1
        · exact ⟨t, ht', hbad⟩

/-! ## Claims -/

/-- C1: For every export directory and name in the name-pointer table, the
specification says `symbol_by_name` walks `names()` zipped with
`name_indices()` and resolves through `functions()[name_indices()[i]]`,
returning a non-`None` variant.  The source instead zips `names()` with
`names()` (the second `if let` on line 175 of `pe64/exports.rs` reads
`self.names()` where `self.name_indices()` is intended), so the name RVA is
used as the function-table index: on a well-formed table the lookup takes the
out-of-range "corruption" path and returns `Export::None`, while the
spec-described lookup — and `name_from_ordinal`, which zips the tables
correctly — resolve the same name to `Symbol(0x1111)`. -/
theorem C1_symbol_by_name_bug :
    symbol_by_name exC1 "foo" = .ok Export.none
    ∧ symbol_by_name_spec exC1 "foo" = .ok (Export.symbol 0x1111)
    ∧ name_from_ordinal exC1 1 = .ok ⟨1, Export.symbol 0x1111, some "foo"⟩ := by
  decide

/-- C2: The claim (and the reader's own documentation) says an accepted `rva`
satisfies `rva + sizeof(T) * len ≤ buffer.len()` and that violations are a
hard failure, with no out-of-bounds reads.  The bounds assert computes
`image.len() - size_of::<T>()` in `usize`, which wraps when the buffer is
smaller than `T` (the source comments "Note! This assert will pass on
underflow..."), so a 2-byte buffer accepts `read_struct::<u32>(4)` and
`read_slice::<u32>(4, 1)` and hands out a reference 4 bytes past the end. -/
theorem C2_read_bounds_underflow :
    read_struct 2 4 4 4 = .ok (some 4)
    ∧ read_slice 2 4 4 4 1 = .ok (some 4)
    ∧ ¬(4 + 4 * 1 ≤ 2) := by
  decide

/-- C3 counterexample: `symbol_by_ordinal` does not compute `idx = ord − Base`
with a saturating subtraction.  With `Base = 1` and a single nonzero function
RVA 42, the wrapping subtraction of the source maps ordinal 0 to index
`0xFFFF` (out of range ⇒ `None`), whereas the saturating computation the claim
describes maps it to index 0 and returns `Symbol(42)` — the two computations
disagree, and the saturating one does not even make an under-`Base` ordinal
yield `None`. -/
theorem C3_counterexample :
    symbol_by_ordinal exC3 0 = .ok Export.none
    ∧ symbol_by_ordinal_saturating exC3 0 = .ok (Export.symbol 42) := by
  decide

/-- C3 amended: `symbol_by_ordinal` computes `idx = ord − Base` with a
wrapping `u16` subtraction.  An ordinal below `Base` yields `None` provided
`NumberOfFunctions + Base ≤ 0x10000` (the wrapped index then falls outside the
function table); and for every ordinal in `[Base, Base + NumberOfFunctions)`
the lookup returns `Symbol`, `Forward`, or `None` without panicking — a zero
function-table entry gives `None`, an RVA inside the export data directory's
extent gives `Forward` — provided every forwarded RVA has a readable string. -/
theorem C3_symbol_by_ordinal_amended (e : ExportDir) (fns : List Nat) (ord : Nat)
    (hf : e.functions? = some fns)
    (hord : ord < U16) (hbase : e.base < U16)
    (hfit : fns.length + e.base ≤ U16)
    (hread : ∀ rva, is_forwarded e rva = true → (e.read_str? rva).isSome) :
    (ord < e.base → symbol_by_ordinal e ord = .ok .none)
    ∧ (e.base ≤ ord → ord - e.base < fns.length →
        (fns.getD (ord - e.base) 0 = 0 → symbol_by_ordinal e ord = .ok .none)
        ∧ (fns.getD (ord - e.base) 0 ≠ 0 →
            is_forwarded e (fns.getD (ord - e.base) 0) = false →
            symbol_by_ordinal e ord = .ok (.symbol (fns.getD (ord - e.base) 0)))
        ∧ (fns.getD (ord - e.base) 0 ≠ 0 →
            is_forwarded e (fns.getD (ord - e.base) 0) = true →
            ∃ s, e.read_str? (fns.getD (ord - e.base) 0) = some s ∧
              symbol_by_ordinal e ord = .ok (.forward s))) := by
  have hordm : ord % U16 = ord := Nat.mod_eq_of_lt hord
  have hbasem : e.base % U16 = e.base := Nat.mod_eq_of_lt hbase
  constructor
  · intro hlt
    unfold symbol_by_ordinal
    rw [hf]
    simp only [hordm, hbasem]
    rw [subWrap_of_lt hlt hbase,
      get?_of_length_le fns _ (by omega)]
  · intro hge hidx
    have hmain : symbol_by_ordinal e ord =
        if fns.getD (ord - e.base) 0 ≠ 0 then symbol_from_rva e (fns.getD (ord - e.base) 0)
        else .ok .none := by
      unfold symbol_by_ordinal
      rw [hf]
      simp only [hordm, hbasem]
      rw [subWrap_of_le hge hord, get?_eq_getD 0 fns _ hidx]
    set r := fns.getD (ord - e.base) 0 with hr
    refine ⟨fun h0 => ?_, fun h0 hfwd => ?_, fun h0 hfwd => ?_⟩
    · rw [hmain, if_neg (by simp [h0])]
    · rw [hmain, if_pos h0]
      unfold symbol_from_rva
      simp [hfwd]
    · have hs := hread _ hfwd
      rcases Option.isSome_iff_exists.mp hs with ⟨s, hsome⟩
      refine ⟨s, hsome, ?_⟩
      rw [hmain, if_pos h0]
      unfold symbol_from_rva
      simp [hfwd, hsome]

/-- C3 witness: the amended theorem applied at `exC3` (`Base = 1`,
`functions = [42]`): ordinal 0 (below `Base`) yields `None`, ordinal 1
resolves to `Symbol(42)`. -/
theorem C3_witness :
    symbol_by_ordinal exC3 0 = .ok Export.none
    ∧ symbol_by_ordinal exC3 1 = .ok (Export.symbol 42) := by
  have h0 := C3_symbol_by_ordinal_amended exC3 [42] 0 rfl (by decide) (by decide)
    (by decide) (fun _ _ => rfl)
  have h1 := C3_symbol_by_ordinal_amended exC3 [42] 1 rfl (by decide) (by decide)
    (by decide) (fun _ _ => rfl)
  exact ⟨h0.1 (by decide), ((h1.2 (by decide) (by decide)).2.1 (by decide) (by decide))⟩

/-- C4: `open` returns `BadMagic` exactly on a magic mismatch — the DOS magic,
or (once `e_lfanew` passes its bound and the NT headers are read) the NT
signature or optional-header magic — and returns `Insanity` exactly on the
claimed sanity violations, in check order: `e_lfanew` zero or above `0x200`,
`SizeOfHeaders > 0x1000`, `NumberOfRvaAndSizes > 16`,
`SizeOfOptionalHeader < sizeof(OptionalHeader)`, `NumberOfSections > 100`, the
section-header range ending beyond `SizeOfHeaders`, or a section with
`VirtualAddress` below `SizeOfHeaders` or `VirtualSize == 0`.  The `Insanity`
characterization assumes the header and section copies fit in the
`SizeOfImage` buffer (otherwise the unvalidated copies panic first, the
source's `FIXME`). -/
theorem C4_open_errors (inp : OpenInput) :
    (pefile_open inp = .ok (.error .badMagic) ↔ open_badMagic_cond inp)
    ∧ (inp.sizeOfHeaders ≤ inp.sizeOfImage →
       (∀ s ∈ inp.sections, s.pointerToRawData ≠ 0 →
          s.virtualAddress + s.sizeOfRawData ≤ inp.sizeOfImage) →
       (pefile_open inp = .ok (.error .insanity) ↔ open_insanity_cond inp)) := by
  simp only [pefile_open, open_badMagic_cond, open_insanity_cond,
    IMAGE_DOS_HEADER_MAGIC, IMAGE_NT_HEADERS_SIGNATURE, IMAGE_NT_OPTIONAL_HDR_MAGIC,
    IMAGE_NUMBEROF_DIRECTORY_ENTRIES, sizeof_ImageOptionalHeader, sizeof_ImageNtHeaders,
    sizeof_ImageSectionHeader]
  split_ifs with h1 h2 h3 h4 h5 h6 h7
  · -- DOS magic mismatch ⇒ BadMagic
    refine ⟨iff_of_true rfl (Or.inl h1), fun _ _ => iff_of_false (by simp) ?_⟩
    exact fun h => h1 h.1
  · -- e_lfanew out of bounds ⇒ Insanity
    refine ⟨iff_of_false (by simp) ?_, fun _ _ => iff_of_true rfl ⟨not_ne_iff.mp h1, Or.inl h2⟩⟩
    rintro (h | ⟨_, ha, hb, _⟩)
    · exact h1 h
    · omega
  · -- NT signature or optional magic mismatch ⇒ BadMagic
    refine ⟨iff_of_true rfl (Or.inr ⟨not_ne_iff.mp h1, by omega, by omega, h3⟩),
      fun _ _ => iff_of_false (by simp) ?_⟩
    rintro ⟨_, h | ⟨_, _, hsig, hopt, _⟩⟩
    · omega
    · rcases h3 with h | h
      · exact h hsig
      · exact h hopt
  · -- sanity bounds violated ⇒ Insanity
    have hno := not_or.mp h3
    refine ⟨iff_of_false (by simp) ?_, fun _ _ => iff_of_true rfl
      ⟨not_ne_iff.mp h1, Or.inr ⟨by omega, by omega, not_ne_iff.mp hno.1,
        not_ne_iff.mp hno.2, Or.inl h4⟩⟩⟩
    rintro (h | ⟨_, _, _, hmm⟩)
    · exact h1 h
    · rcases hmm with h | h
      · exact hno.1 h
      · exact hno.2 h
  · -- section-header range beyond SizeOfHeaders ⇒ Insanity
    have hno := not_or.mp h3
    refine ⟨iff_of_false (by simp) ?_, fun _ _ => iff_of_true rfl
      ⟨not_ne_iff.mp h1, Or.inr ⟨by omega, by omega, not_ne_iff.mp hno.1,
        not_ne_iff.mp hno.2, Or.inr ⟨by omega, by omega, by omega, by omega,
          Or.inl h5⟩⟩⟩⟩
    rintro (h | ⟨_, _, _, hmm⟩)
    · exact h1 h
    · rcases hmm with h | h
      · exact hno.1 h
      · exact hno.2 h
  · -- unreachable: SizeOfHeaders cannot undercut the NT headers here
    exact absurd h6 (by omega)
  · -- headers overrun SizeOfImage ⇒ the header copy panics
    have hno := not_or.mp h3
    refine ⟨iff_of_false (by simp) ?_, fun himg _ => absurd himg (by omega)⟩
    rintro (h | ⟨_, _, _, hmm⟩)
    · exact h1 h
    · rcases hmm with h | h
      · exact hno.1 h
      · exact hno.2 h
  · -- all header checks pass ⇒ map_sections decides the outcome
    have hno := not_or.mp h3
    constructor
    · refine iff_of_false (map_sections_ne_badMagic _ _ _) ?_
      rintro (h | ⟨_, _, _, hmm⟩)
      · exact h1 h
      · rcases hmm with h | h
        · exact hno.1 h
        · exact hno.2 h
    · intro _ hfits
      rw [map_sections_insanity_iff _ _ _ hfits]
      constructor
      · intro hex
        exact ⟨not_ne_iff.mp h1, Or.inr ⟨by omega, by omega, not_ne_iff.mp hno.1,
          not_ne_iff.mp hno.2, Or.inr ⟨by omega, by omega, by omega, by omega,
            Or.inr ⟨by omega, hex⟩⟩⟩⟩
      · rintro ⟨_, h | ⟨_, _, _, _, h | ⟨_, _, _, _, h | ⟨_, hex⟩⟩⟩⟩
        · omega
        · omega
        · omega
        · exact hex

/-- C4 witness: the characterization applied to two concrete files — one with
a byte-swapped DOS magic (`BadMagic`), one declaring 200 sections
(`Insanity`). -/
theorem C4_witness :
    pefile_open inpBadMagic = .ok (.error .badMagic)
    ∧ pefile_open inpInsane = .ok (.error .insanity) := by
  refine ⟨(C4_open_errors inpBadMagic).1.mpr (by decide),
    ((C4_open_errors inpInsane).2 (by decide) (by decide)).mpr (by decide)⟩

theorem relocs_iter_sum (v : RelocView) (endPos : Nat)
    (hsz : ∀ p va s, v.readReloc? p = some (va, s) → s < U32)
    (hlen : ∀ p n bl, v.readBlocks? p n = some bl → bl.length = n)
    (hend : endPos ≤ U32) :
    ∀ (fuel it : Nat) (l : List BaseRel), it < U32 →
      relocs_iter v endPos fuel it = .ok l →
      endPos - it ≤ sizeOfBlocks_sum l
      ∧ ∀ b ∈ l, sizeof_ImageBaseRelocation < b.sizeOfBlock
          ∧ b.blocks.length = (b.sizeOfBlock - sizeof_ImageBaseRelocation) / 2 := by
  intro fuel
  induction fuel with
  | zero => intro it l _ hok; cases hok
  | succ fuel ih =>
    intro it l hit hok
    unfold relocs_iter at hok
    split_ifs at hok with hge
    · cases hok
      exact ⟨by omega, by simp⟩
    · revert hok
      cases hhdr : v.readReloc? it with
      | none => intro hok; cases hok
      | some hdr =>
        obtain ⟨va, s⟩ := hdr
        have hsU : s < U32 := hsz _ _ _ hhdr
        simp only
        split_ifs with hblk
        · cases hbl : v.readBlocks? ((it + sizeof_ImageBaseRelocation) % U32)
              ((s - sizeof_ImageBaseRelocation) / 2) with
          | none => intro hok; cases hok
          | some entries =>
            cases hrec : relocs_iter v endPos fuel ((it + s) % U32) with
            | ok rest =>
              intro hok
              cases hok
              have hit' : (it + s) % U32 < U32 := Nat.mod_lt _ (by decide)
              have hrest := ih ((it + s) % U32) rest hit' hrec
              have hmod : (it + s) % U32 = it + s ∨
                  ((it + s) % U32 = it + s - U32 ∧ U32 ≤ it + s) := by
                by_cases hw : it + s < U32
                · exact Or.inl (Nat.mod_eq_of_lt hw)
                · refine Or.inr ⟨?_, le_of_not_lt hw⟩
                  rw [Nat.mod_eq_sub_mod (le_of_not_lt hw), Nat.mod_eq_of_lt (by omega)]
              refine ⟨?_, ?_⟩
              · have h1 := hrest.1
                simp only [sizeOfBlocks_sum, List.map_cons, List.sum_cons]
                simp only [sizeOfBlocks_sum] at h1
                rcases hmod with h | ⟨h, hU⟩ <;> omega
              · intro b hb
                rcases List.mem_cons.mp hb with rfl | hb'
                · exact ⟨hblk, hlen _ _ _ hbl⟩
                · exact hrest.2 b hb'
            | aborted => intro hok; cases hok
            | fuelOut => intro hok; cases hok
        · intro hok; cases hok

/-- C5 counterexample: a relocation directory of declared `Size` 10 whose
single block has `SizeOfBlock = 12`.  The iterator emits the block (the
position `0x1000` is still below the end `0x100A`) and the emitted
`SizeOfBlock` sum is 12, not the directory's `Size` 10. -/
theorem C5_counterexample :
    relocs_full relocsC5 0x1000 10 20 = .ok [⟨0x1000, 12, [0xA018, 0xA018]⟩]
    ∧ sizeOfBlocks_sum [⟨0x1000, 12, [0xA018, 0xA018]⟩] = 12
    ∧ (12 : Nat) ≠ 10 := by
  decide

/-- C5 amended: relocation iteration starts at the directory's
`VirtualAddress` and, while the position is below `VirtualAddress + Size`,
reads an `ImageBaseRelocation` header, fails hard unless
`SizeOfBlock > sizeof(ImageBaseRelocation)`, yields the
`(SizeOfBlock - sizeof(ImageBaseRelocation)) / sizeof(u16)` entries following
the header, and advances by `SizeOfBlock`; over a full iteration the sum of
the emitted `SizeOfBlock` values is at least the directory's `Size` (strictly
greater when the final block overruns the directory end; equal when the
blocks tile it exactly). -/
theorem C5_relocs_amended (v : RelocView) (dirVA dirSize fuel : Nat) (l : List BaseRel)
    (hsz : ∀ p va s, v.readReloc? p = some (va, s) → s < U32)
    (hlen : ∀ p n bl, v.readBlocks? p n = some bl → bl.length = n)
    (hdir : dirVA + dirSize < U32)
    (hok : relocs_full v dirVA dirSize fuel = .ok l) :
    dirSize ≤ sizeOfBlocks_sum l
    ∧ ∀ b ∈ l, sizeof_ImageBaseRelocation < b.sizeOfBlock
        ∧ b.blocks.length = (b.sizeOfBlock - sizeof_ImageBaseRelocation) / 2 := by
  unfold relocs_full at hok
  rw [Nat.mod_eq_of_lt hdir] at hok
  obtain ⟨h1, h2⟩ := relocs_iter_sum v (dirVA + dirSize) hsz hlen (le_of_lt hdir)
    fuel dirVA l (by omega) hok
  exact ⟨by omega, h2⟩

/-- C5 witness: the amended bound applied to the same view with the directory
`Size` set to 12, which the single block tiles exactly. -/
theorem C5_witness :
    12 ≤ sizeOfBlocks_sum [(⟨0x1000, 12, [0xA018, 0xA018]⟩ : BaseRel)] := by
  refine (C5_relocs_amended relocsC5 0x1000 12 20 [⟨0x1000, 12, [0xA018, 0xA018]⟩]
    ?_ ?_ (by decide) (by decide)).1
  · intro p va s hp
    by_cases hpp : p = 0x1000
    · simp [relocsC5, hpp] at hp
      unfold U32
      omega
    · simp [relocsC5, hpp] at hp
  · intro p n bl hp
    by_cases hpp : p = 0x1008
    · simp [relocsC5, hpp] at hp
      simp [← hp]
    · simp [relocsC5, hpp] at hp

/-- C6 counterexample: `data()` does not return an empty/absent payload on a
bad `OffsetToData` — it panics.  With a 16-byte resource slice based at RVA
`0x1000`, an entry with `OffsetToData = 0x500` (below the base) aborts, and so
does an in-base entry whose 16-byte payload would run past the slice end. -/
theorem C6_counterexample :
    resource_data 16 0x1000 0x500 1 = .aborted
    ∧ resource_data 16 0x1000 0x1008 16 = .aborted := by
  decide

/-- C6 amended: for every resource data entry, `data()` returns the
`Size`-byte slice starting at `OffsetToData - vbase` within the resource
slice; if `OffsetToData < vbase` or the resulting slice would escape the
resource slice, the call is a hard failure (a panic, the behaviour the
source's comment calls desired) rather than a wrapped in-bounds read. -/
theorem C6_data_amended (dataLen vbase offsetToData size : Nat)
    (hb : vbase < U32) (ho : offsetToData < U32) (hs : size < U32)
    (hd : dataLen < 9223372036854775808) :
    ((offsetToData < vbase ∨ dataLen < offsetToData - vbase + size) →
      resource_data dataLen vbase offsetToData size = .aborted)
    ∧ (vbase ≤ offsetToData → offsetToData - vbase + size ≤ dataLen →
      resource_data dataLen vbase offsetToData size = .ok (offsetToData - vbase, size)) := by
  have hb' : vbase < 4294967296 := hb
  have ho' : offsetToData < 4294967296 := ho
  have hs' : size < 4294967296 := hs
  have hbUS : vbase < USIZE := by unfold USIZE; omega
  have hoUS : offsetToData < USIZE := by unfold USIZE; omega
  simp only [resource_data]
  rw [Nat.mod_eq_of_lt hbUS]
  by_cases hle : vbase ≤ offsetToData
  · rw [subWrap_of_le hle hoUS]
    have hstop : (offsetToData - vbase + size) % USIZE = offsetToData - vbase + size :=
      Nat.mod_eq_of_lt (by unfold USIZE; omega)
    rw [hstop]
    constructor
    · rintro (h | h)
      · exact absurd h (by omega)
      · rw [if_neg]
        rintro ⟨-, h2⟩
        omega
    · intro _ hfit
      rw [if_pos ⟨Nat.le_add_right _ _, hfit⟩]
  · push_neg at hle
    rw [subWrap_of_lt hle hbUS]
    refine ⟨fun _ => ?_, fun hge _ => absurd hge (by omega)⟩
    by_cases hww : USIZE - vbase + offsetToData + size < USIZE
    · rw [Nat.mod_eq_of_lt hww, if_neg]
      rintro ⟨-, h2⟩
      unfold USIZE at *
      omega
    · have hmod : (USIZE - vbase + offsetToData + size) % USIZE
          = USIZE - vbase + offsetToData + size - USIZE := by
        rw [Nat.mod_eq_sub_mod (le_of_not_lt hww)]
        exact Nat.mod_eq_of_lt (by unfold USIZE; omega)
      rw [hmod, if_neg]
      rintro ⟨h1, -⟩
      unfold USIZE at *
      omega

/-- C6 witness: the amended statement applied to a 100-byte resource slice
based at `0x1000`: `OffsetToData = 0x1008, Size = 16` yields the window at
offset 8, and `OffsetToData = 0x900` (below the base) panics. -/
theorem C6_witness :
    resource_data 100 0x1000 0x1008 16 = .ok (8, 16)
    ∧ resource_data 100 0x1000 0x900 4 = .aborted := by
  refine ⟨(C6_data_amended 100 0x1000 0x1008 16 (by decide) (by decide) (by decide)
      (by decide)).2 (by decide) (by decide),
    (C6_data_amended 100 0x1000 0x900 4 (by decide) (by decide) (by decide)
      (by decide)).1 (Or.inl (by decide))⟩

theorem int_iter_decodes (vaSize flag : Nat) (v : ImportDescView) :
    ∀ (ws : List Nat) (oft : Nat), oft < U32 →
      (∀ i, i < ws.length → v.readVa? ((oft + vaSize * i) % U32) = some (ws.getD i 0)
        ∧ ws.getD i 0 ≠ 0) →
      v.readVa? ((oft + vaSize * ws.length) % U32) = some 0 →
      int_iter vaSize flag v (ws.length + 1) oft = decode_thunks flag v ws := by
  intro ws
  induction ws with
  | nil =>
    intro oft holt _ hterm
    simp only [List.length_nil, Nat.mul_zero, Nat.add_zero, Nat.mod_eq_of_lt holt] at hterm
    show int_iter vaSize flag v (0 + 1) oft = _
    unfold int_iter
    rw [hterm]
    simp [decode_thunks]
  | cons w rest ih =>
    intro oft holt hall hterm
    have h0 := hall 0 (by simp)
    rw [show (oft + vaSize * 0) % U32 = oft from by
      rw [Nat.mul_zero, Nat.add_zero, Nat.mod_eq_of_lt holt]] at h0
    simp only [List.getD_cons_zero] at h0
    have hpos : ∀ i, ((oft + vaSize) % U32 + vaSize * i) % U32
        = (oft + vaSize * (i + 1)) % U32 := by
      intro i
      rw [Nat.mod_add_mod]
      congr 1
      ring
    have hall' : ∀ i, i < rest.length →
        v.readVa? (((oft + vaSize) % U32 + vaSize * i) % U32) = some (rest.getD i 0)
        ∧ rest.getD i 0 ≠ 0 := by
      intro i hi
      rw [hpos i]
      have := hall (i + 1) (by simpa using Nat.succ_lt_succ hi)
      simpa using this
    have hterm' : v.readVa? (((oft + vaSize) % U32 + vaSize * rest.length) % U32)
        = some 0 := by
      rw [hpos rest.length]
      simpa using hterm
    have hrec := ih ((oft + vaSize) % U32) (Nat.mod_lt _ (by decide)) hall' hterm'
    show int_iter vaSize flag v (rest.length + 1 + 1) oft = _
    unfold int_iter
    rw [h0.1]
    dsimp only
    rw [if_pos h0.2]
    rw [hrec]
    simp only [decode_thunks]
    cases hdec : decode_thunk flag v w <;>
      cases hdt : decode_thunks flag v rest <;>
        simp [RunResult.bind]

/-- C7: for every import descriptor, the INT iterator walks VA-width thunk
words from `OriginalFirstThunk`, ends on a zero thunk, and decodes each thunk
by the address-width-specific ordinal flag (`IMAGE_ORDINAL_FLAG32`, bit 31,
for the 32-bit decoder; `IMAGE_ORDINAL_FLAG64`, bit 63, for the 64-bit one):
flag set ⇒ `ByOrdinal` of the low 16 bits; flag clear ⇒ the thunk is an RVA to
a 16-bit hint followed by the NUL-terminated name, giving `ByName`. -/
theorem C7_int_iter (vaSize flag : Nat)
    (_hwf : vaSize = 4 ∧ flag = IMAGE_ORDINAL_FLAG32 ∨
      vaSize = 8 ∧ flag = IMAGE_ORDINAL_FLAG64)
    (v : ImportDescView) :
    (∀ w, Nat.land w flag ≠ 0 →
      decode_thunk flag v w = .ok (.byOrdinal (Nat.land w 0xFFFF)))
    ∧ (∀ w hint name, Nat.land w flag = 0 →
        v.readU16? (w % U32) = some hint →
        v.readStr? ((w % U32 + 2) % U32) = some name →
        decode_thunk flag v w = .ok (.byName hint name))
    ∧ (∀ ws oft, oft < U32 →
        (∀ i, i < ws.length → v.readVa? ((oft + vaSize * i) % U32) = some (ws.getD i 0)
          ∧ ws.getD i 0 ≠ 0) →
        v.readVa? ((oft + vaSize * ws.length) % U32) = some 0 →
        int_iter vaSize flag v (ws.length + 1) oft = decode_thunks flag v ws) := by
  refine ⟨?_, ?_, fun ws oft h1 h2 h3 => int_iter_decodes vaSize flag v ws oft h1 h2 h3⟩
  · intro w hw
    unfold decode_thunk
    rw [if_neg hw]
  · intro w hint name hw h16 hstr
    unfold decode_thunk
    rw [if_pos hw, h16, hstr]

/-- C7 witness: the 32-bit instantiation run on a concrete INT holding an
ordinal import (`0x80000005` ⇒ ordinal 5) and a by-name import (`0x3000` ⇒
hint 7, name `"GetProcAddress"`), terminated by a zero thunk. -/
theorem C7_witness :
    int_iter 4 IMAGE_ORDINAL_FLAG32 intC7 3 0x100 =
      .ok [ImportedSymbol.byOrdinal 5, ImportedSymbol.byName 7 "GetProcAddress"] := by
  have h := (C7_int_iter 4 IMAGE_ORDINAL_FLAG32 (Or.inl ⟨rfl, rfl⟩) intC7).2.2
    [0x80000005, 0x3000] 0x100 (by decide) (by decide) (by decide)
  rw [show (3 : Nat) = [0x80000005, 0x3000].length + 1 from rfl, h]
  decide

theorem mod_U32_cases (x : Nat) (hx : x < 2 * U32) :
    x % U32 = x ∧ x < U32 ∨ x % U32 = x - U32 ∧ U32 ≤ x := by
  by_cases h : x < U32
  · exact Or.inl ⟨Nat.mod_eq_of_lt h, h⟩
  · refine Or.inr ⟨?_, le_of_not_lt h⟩
    rw [Nat.mod_eq_sub_mod (le_of_not_lt h)]
    exact Nat.mod_eq_of_lt (by omega)

/-- C8 counterexample: two sections whose raw-data ranges coincide.  The RVA
`0x2000` (covered only by the second section) converts to file offset
`0x400`, but `file_offset_to_rva` — scanning in order — attributes `0x400` to
the first section and returns `0x1000`, not the original `0x2000`. -/
theorem C8_counterexample :
    rva_to_file_offset secsOverlap 0x2000 = some 0x400
    ∧ file_offset_to_rva secsOverlap 0x400 = 0x1000
    ∧ (0x1000 : Nat) ≠ 0x2000 := by
  decide

/-- C8 amended: provided the sections' raw-data ranges are pairwise disjoint
(and the `u32` fields do not overflow), every `rva` that
`rva_to_file_offset` converts lands inside some section's
`[PointerToRawData, PointerToRawData + SizeOfRawData)` and
`file_offset_to_rva` maps the offset back to the original `rva`; without the
disjointness the reverse scan can attribute the offset to a different
section.  Unconditionally, `rva_to_file_offset` is absent exactly when no
section's `[VirtualAddress, VirtualAddress + SizeOfRawData)` range covers
`rva`. -/
theorem C8_roundtrip_amended (sections : List SectionHeader) (rva : Nat)
    (hva : ∀ s ∈ sections, s.virtualAddress < U32)
    (hraw : ∀ s ∈ sections, s.pointerToRawData + s.sizeOfRawData < U32)
    (hdisj : sections.Pairwise rawDisjoint)
    (hrva : rva < U32) :
    (∀ off, rva_to_file_offset sections rva = some off →
      (∃ s ∈ sections,
        s.pointerToRawData ≤ off ∧ off < s.pointerToRawData + s.sizeOfRawData)
      ∧ file_offset_to_rva sections off = rva)
    ∧ (rva_to_file_offset sections rva = Option.none ↔
      ∀ s ∈ sections,
        ¬(s.virtualAddress ≤ rva ∧ rva < (s.virtualAddress + s.sizeOfRawData) % U32)) := by
  induction sections with
  | nil =>
    constructor
    · intro off h
      simp [rva_to_file_offset] at h
    · simp [rva_to_file_offset]
  | cons s rest ih =>
    have hvas := hva s (List.mem_cons_self s rest)
    have hraws := hraw s (List.mem_cons_self s rest)
    obtain ⟨hdisj_head, hdisj_rest⟩ := List.pairwise_cons.mp hdisj
    have ihh := ih (fun t ht => hva t (List.mem_cons_of_mem _ ht))
      (fun t ht => hraw t (List.mem_cons_of_mem _ ht)) hdisj_rest
    constructor
    · intro off hoff
      unfold rva_to_file_offset at hoff
      split_ifs at hoff with hcov
      · -- the head section covers rva
        rcases mod_U32_cases (s.virtualAddress + s.sizeOfRawData) (by omega) with
          ⟨heq, _⟩ | ⟨heq, _⟩
        · rw [heq] at hcov
          have hoffval : (subWrap U32 (rva % U32) s.virtualAddress +
              s.pointerToRawData) % U32 = rva - s.virtualAddress + s.pointerToRawData := by
            rw [Nat.mod_eq_of_lt hrva, subWrap_of_le hcov.1 hrva]
            exact Nat.mod_eq_of_lt (by omega)
          rw [hoffval] at hoff
          have hoffeq := Option.some.inj hoff
          subst hoffeq
          have hoffU32 : rva - s.virtualAddress + s.pointerToRawData < U32 := by omega
          refine ⟨⟨s, List.mem_cons_self s rest, by omega, by omega⟩, ?_⟩
          unfold file_offset_to_rva
          rw [if_pos ⟨by omega, by omega⟩]
          rw [Nat.mod_eq_of_lt hoffU32, subWrap_of_le (by omega) hoffU32]
          have hback : rva - s.virtualAddress + s.pointerToRawData -
              s.pointerToRawData + s.virtualAddress = rva := by omega
          rw [hback, Nat.mod_eq_of_lt hrva]
        · rw [heq] at hcov
          exact absurd hcov (by omega)
      · -- the head section does not cover rva; recurse
        have hres := ihh.1 off hoff
        obtain ⟨⟨t, ht, ht1, ht2⟩, hback⟩ := hres
        refine ⟨⟨t, List.mem_cons_of_mem _ ht, ht1, ht2⟩, ?_⟩
        unfold file_offset_to_rva
        rw [if_neg ?_, hback]
        have hdisjst := hdisj_head t ht
        rintro ⟨ha, hb⟩
        rcases hdisjst with h | h <;> omega
    · unfold rva_to_file_offset
      split_ifs with hcov
      · refine iff_of_false (fun h => by cases h) ?_
        intro hall
        exact hall s (List.mem_cons_self s rest) hcov
      · rw [ihh.2]
        constructor
        · intro hall t ht
          rcases List.mem_cons.mp ht with rfl | ht'
          · exact hcov
          · exact hall t ht'
        · intro hall t ht
          exact hall t (List.mem_cons_of_mem _ ht)

/-- C8 witness: the round trip on two well-formed sections with disjoint raw
ranges: RVA `0x2010` (second section) maps to file offset `0x610` and back. -/
theorem C8_witness :
    rva_to_file_offset secsDisjoint 0x2010 = some 0x610
    ∧ file_offset_to_rva secsDisjoint 0x610 = 0x2010 := by
  have h := (C8_roundtrip_amended secsDisjoint 0x2010 (by decide) (by decide) (by decide)
    (by decide)).1 0x610 (by decide)
  exact ⟨by decide, h.2⟩

theorem walkEntry_resCyc_fuelOut :
    ∀ fuel, walkEntry resCyc fuel rootOffsetWord = .fuelOut := by
  intro fuel
  induction fuel with
  | zero => rfl
  | succ fuel ih =>
    show walkEntry resCyc (fuel + 1) rootOffsetWord = .fuelOut
    unfold walkEntry
    rw [if_pos (by decide)]
    rw [show resCyc.readDir? (Nat.land rootOffsetWord 0x7FFFFFFF) =
      some [(0, 0x80000000)] from by decide]
    show walkEntry resCyc fuel 0x80000000 = .fuelOut
    exact ih

/-- C9 counterexample: the resource traversal of the source neither bounds its
recursion depth by a small constant such as 32 nor rejects cycles: on the
cyclic encoding `resCyc` it is still descending — with no error raised — after
exhausting a depth budget of 33, and likewise 64. -/
theorem C9_counterexample :
    walkEntry resCyc 33 rootOffsetWord = .fuelOut
    ∧ walkEntry resCyc 64 rootOffsetWord = .fuelOut := by
  decide

/-- C9 amended: resource-tree traversal imposes no depth bound and no cycle
detection; it terminates only on encodings whose reachable entry graph is
finite.  On a cyclic encoding — here a directory at offset 0 whose single
entry points back to offset 0 — the recursion exhausts every depth budget. -/
theorem C9_no_depth_bound :
    resCyc.readDir? (Nat.land rootOffsetWord 0x7FFFFFFF) = some [(0, rootOffsetWord)]
    ∧ ∀ fuel, walkEntry resCyc fuel rootOffsetWord = .fuelOut :=
  ⟨by decide, walkEntry_resCyc_fuelOut⟩

/-- C10: each decoder entry point looks its data-directory slot up with the
checked `get` on the slice of length `NumberOfRvaAndSizes`, so a view whose
optional header declares `NumberOfRvaAndSizes` at or below the slot index
makes `exports()`, `imports()`, `resources()` and `relocs()` return `None`
rather than panic. -/
theorem C10_entry_checked_get (v : EntryView) :
    (v.dataDirectory.length ≤ IMAGE_DIRECTORY_ENTRY_EXPORT →
      exports_entry v = .ok Option.none)
    ∧ (v.dataDirectory.length ≤ IMAGE_DIRECTORY_ENTRY_IMPORT →
      imports_entry v = .ok Option.none)
    ∧ (v.dataDirectory.length ≤ IMAGE_DIRECTORY_ENTRY_RESOURCE →
      resources_entry v = .ok Option.none)
    ∧ (v.dataDirectory.length ≤ IMAGE_DIRECTORY_ENTRY_BASERELOC →
      relocs_entry v = .ok Option.none) := by
  refine ⟨fun h => ?_, fun h => ?_, fun h => ?_, fun h => ?_⟩
  · unfold exports_entry
    rw [get?_of_length_le _ _ h]
  · unfold imports_entry
    rw [get?_of_length_le _ _ h]
  · unfold resources_entry
    rw [get?_of_length_le _ _ h]
  · unfold relocs_entry
    rw [get?_of_length_le _ _ h]

/-- C10 witness: the four entry points applied to a view with an empty data
directory (`NumberOfRvaAndSizes = 0`). -/
theorem C10_witness :
    exports_entry entryViewEmpty = .ok Option.none
    ∧ imports_entry entryViewEmpty = .ok Option.none
    ∧ resources_entry entryViewEmpty = .ok Option.none
    ∧ relocs_entry entryViewEmpty = .ok Option.none := by
  obtain ⟨h1, h2, h3, h4⟩ := C10_entry_checked_get entryViewEmpty
  exact ⟨h1 (by decide), h2 (by decide), h3 (by decide), h4 (by decide)⟩

end Pelite
